import Mathlib

/-!
Verification of the virtual-memory mapping core in `src/arch/x64/paging.rs`
(crate `nebulet`): the `PageMapper` and `LockedPageMapper` wrappers around a
recursively self-mapped page table and the global frame allocator.

The wrappers themselves are translated directly from the source.  The
operations of the underlying `RecursivePageTable` (`map_to`, `unmap`,
`update_flags`, `translate`) and the frame allocator interface come from the
external `x86_64` crate, whose code is not part of this repository; they are
modelled from the specification (sections 3, 4.3, 6, 7), as noted on each
definition.
-/

/-- A 4 KiB virtual page, identified by its aligned address (page number). -/
structure Page where
  num : Nat
deriving DecidableEq, Repr

/-- A 4 KiB physical frame, identified by its aligned address (frame number). -/
structure PhysFrame where
  num : Nat
deriving DecidableEq, Repr

/-- Page-table entry flags, an abstract hardware-defined bit-set. -/
structure PageTableFlags where
  bits : Nat
deriving DecidableEq, Repr

/-- Errors of the underlying `map_to` operation (from the `x86_64` crate's
`MapToError`). -/
inductive MapToError where
  | FrameAllocationFailed
  | ParentEntryHugePage
  | PageAlreadyMapped
deriving DecidableEq, Repr

/-- Errors of the underlying `unmap` operation. -/
inductive UnmapError where
  | PageNotMapped
deriving DecidableEq, Repr

/-- Errors of the underlying `update_flags` operation. -/
inductive FlagUpdateError where
  | PageNotMapped
deriving DecidableEq, Repr

/-- The pending translation-cache invalidation token `MapperFlush<Size4KB>`
returned by every successful mutating operation. -/
structure MapperFlush where
  page : Page
deriving DecidableEq, Repr

/-- Leaf entries of the page-table tree: a list of translations
page to frame plus flags. -/
abbrev Entry := Page × PhysFrame × PageTableFlags

/-- Find the translation recorded for a page in an entry list. -/
def lookupEntries : List Entry → Page → Option (PhysFrame × PageTableFlags)
  | [], _ => none
  | e :: es, p => if e.1 = p then some e.2 else lookupEntries es p

/-- Remove every translation recorded for a page from an entry list. -/
def removeEntries : List Entry → Page → List Entry
  | [], _ => []
  | e :: es, p => if e.1 = p then removeEntries es p else e :: removeEntries es p

/-- Replace the flags of every translation recorded for a page, keeping its
frame. -/
def updateEntries : List Entry → Page → PageTableFlags → List Entry
  | [], _, _ => []
  | e :: es, p, fl => (if e.1 = p then (e.1, e.2.1, fl) else e) :: updateEntries es p fl

/-- Modelled from the spec: the recursively self-mapped 4-level page-table
tree (`x86_64::structures::paging::RecursivePageTable`, external to this
repository), abstracted per section 3 of the spec as its leaf translations,
together with the set of pages whose parent slot is already consumed by a
larger (huge) page — the structural failure condition `ParentEntryHugePage`
of section 7. -/
structure RecursivePageTable where
  entries : List Entry
  hugeParents : List Page
deriving DecidableEq, Repr

/-- The translation currently recorded for a page, with its flags. -/
def RecursivePageTable.lookup (t : RecursivePageTable) (p : Page) :
    Option (PhysFrame × PageTableFlags) :=
  lookupEntries t.entries p

/-- Modelled from the spec: read-only translation query of the external
`RecursivePageTable` — returns the frame currently mapped to the page, or
none if unmapped (spec section 4.3). -/
def RecursivePageTable.translate (t : RecursivePageTable) (p : Page) :
    Option PhysFrame :=
  (t.lookup p).map (fun x => x.1)

/-- Modelled from the spec: the external `RecursivePageTable::map_to` —
establishes page to frame with the given flags; fails with
`ParentEntryHugePage` when the slot is consumed by a larger page and with
`PageAlreadyMapped` when the page already has a translation, touching no
entry on failure (spec sections 4.3 and 7). -/
def RecursivePageTable.map_to (t : RecursivePageTable) (page : Page)
    (frame : PhysFrame) (flags : PageTableFlags) :
    Except MapToError (RecursivePageTable × MapperFlush) :=
  if page ∈ t.hugeParents then
    .error .ParentEntryHugePage
  else
    match t.lookup page with
    | some _ => .error .PageAlreadyMapped
    | none => .ok ({ t with entries := (page, frame, flags) :: t.entries }, ⟨page⟩)

/-- Modelled from the spec: the external `RecursivePageTable::unmap` —
removes the translation for the page and hands the now-free frame back for
deallocation; fails with `PageNotMapped` when the page has no translation,
performing no mutation (spec sections 4.3 and 7). -/
def RecursivePageTable.unmap (t : RecursivePageTable) (page : Page) :
    Except UnmapError (RecursivePageTable × PhysFrame × MapperFlush) :=
  match t.lookup page with
  | none => .error .PageNotMapped
  | some (f, _) => .ok ({ t with entries := removeEntries t.entries page }, f, ⟨page⟩)

/-- Modelled from the spec: the external `RecursivePageTable::update_flags` —
changes only the flags of an existing translation, leaving its frame
unchanged; fails with `PageNotMapped` when the page has no translation
(spec sections 4.3 and 7). -/
def RecursivePageTable.update_flags (t : RecursivePageTable) (page : Page)
    (flags : PageTableFlags) :
    Except FlagUpdateError (RecursivePageTable × MapperFlush) :=
  match t.lookup page with
  | none => .error .PageNotMapped
  | some _ => .ok ({ t with entries := updateEntries t.entries page flags }, ⟨page⟩)

/-- The state reachable through a mapper handle: the locked page-table
singleton together with the free list of the global frame allocator
(`memory::FRAME_ALLOCATOR`). -/
structure Machine where
  table : RecursivePageTable
  frames : List PhysFrame
deriving DecidableEq, Repr

/-- Modelled from the spec: `memory::allocate_frame` of the external frame
allocator — yields a frame or reports exhaustion (spec section 6). -/
def memory.allocate_frame : List PhysFrame → Option (PhysFrame × List PhysFrame)
  | [] => none
  | f :: rest => some (f, rest)

/-- Modelled from the spec: `memory::deallocate_frame` of the external frame
allocator — returns a frame to the free list (spec section 6). -/
def memory.deallocate_frame (frames : List PhysFrame) (f : PhysFrame) :
    List PhysFrame :=
  f :: frames

/-- Result of a mapper call: either the kernel halts (an `expect`/`unwrap`
panic fired, carrying the state at the halt), or the call returns a result
together with the post state. -/
inductive Outcome (ε α : Type) where
  | halt (m : Machine)
  | ret (r : Except ε α) (m : Machine)
deriving Repr

/-- Whether the outcome is a kernel halt (panic). -/
def Outcome.isHalt : Outcome ε α → Bool
  | .halt _ => true
  | .ret _ _ => false

/-- The machine state after the call: the post state of a returning call, or
the state at the moment of the halt. -/
def Outcome.state : Outcome ε α → Machine
  | .halt m => m
  | .ret _ m => m

/-- `PageMapper::map` (paging.rs lines 31-36): first acquires one frame from
the global frame allocator, panicking on exhaustion
(`expect("Couldn't allocate any frames!")`), then delegates to the table's
`map_to` with that frame.  A frame popped from the allocator is not returned
on failure of the table operation. -/
def PageMapper.map (m : Machine) (page : Page) (flags : PageTableFlags) :
    Outcome MapToError MapperFlush :=
  match memory.allocate_frame m.frames with
  | none => .halt m
  | some (frame, rest) =>
    match m.table.map_to page frame flags with
    | .error e => .ret (.error e) { m with frames := rest }
    | .ok (t, flush) => .ret (.ok flush) { table := t, frames := rest }

/-- `PageMapper::map_to` (paging.rs lines 38-41): delegates to the table's
`map_to` with the caller-supplied frame; the allocator closure it passes is
not used by the modelled table operation (spec section 4.3: the allocator is
bypassed). -/
def PageMapper.map_to (m : Machine) (page : Page) (frame : PhysFrame)
    (flags : PageTableFlags) : Outcome MapToError MapperFlush :=
  match m.table.map_to page frame flags with
  | .error e => .ret (.error e) m
  | .ok (t, flush) => .ret (.ok flush) { m with table := t }

/-- `PageMapper::unmap` (paging.rs lines 43-46): delegates to the table's
`unmap`, handing the freed frame to `memory::deallocate_frame`. -/
def PageMapper.unmap (m : Machine) (page : Page) :
    Outcome UnmapError MapperFlush :=
  match m.table.unmap page with
  | .error e => .ret (.error e) m
  | .ok (t, frame, flush) =>
    .ret (.ok flush) { table := t, frames := memory.deallocate_frame m.frames frame }

/-- `PageMapper::remap` (paging.rs lines 48-50): delegates to the table's
`update_flags`. -/
def PageMapper.remap (m : Machine) (page : Page) (flags : PageTableFlags) :
    Outcome FlagUpdateError MapperFlush :=
  match m.table.update_flags page flags with
  | .error e => .ret (.error e) m
  | .ok (t, flush) => .ret (.ok flush) { m with table := t }

/-- `PageMapper::translate` (paging.rs lines 52-54): delegates to the table's
read-only `translate`.  The source receiver is `&mut self`, so the result is
paired with the (unchanged) machine state. -/
def PageMapper.translate (m : Machine) (page : Page) :
    Option PhysFrame × Machine :=
  (m.table.translate page, m)

/-- `LockedPageMapper::map` (paging.rs lines 80-88): acquires one frame from
the already-held allocator guard, panicking on exhaustion (`unwrap()`), then
delegates to the table's `map_to` with that frame. -/
def LockedPageMapper.map (m : Machine) (page : Page) (flags : PageTableFlags) :
    Outcome MapToError MapperFlush :=
  match memory.allocate_frame m.frames with
  | none => .halt m
  | some (frame, rest) =>
    match m.table.map_to page frame flags with
    | .error e => .ret (.error e) { m with frames := rest }
    | .ok (t, flush) => .ret (.ok flush) { table := t, frames := rest }

/-- `LockedPageMapper::unmap` (paging.rs lines 90-95): delegates to the
table's `unmap`, handing the freed frame to the held allocator guard. -/
def LockedPageMapper.unmap (m : Machine) (page : Page) :
    Outcome UnmapError MapperFlush :=
  match m.table.unmap page with
  | .error e => .ret (.error e) m
  | .ok (t, frame, flush) =>
    .ret (.ok flush) { table := t, frames := memory.deallocate_frame m.frames frame }

/-- `LockedPageMapper::remap` (paging.rs lines 97-99): delegates to the
table's `update_flags`. -/
def LockedPageMapper.remap (m : Machine) (page : Page) (flags : PageTableFlags) :
    Outcome FlagUpdateError MapperFlush :=
  match m.table.update_flags page flags with
  | .error e => .ret (.error e) m
  | .ok (t, flush) => .ret (.ok flush) { m with table := t }

/-- `LockedPageMapper::translate` (paging.rs lines 105-107): read-only
translation query through the held table reference. -/
def LockedPageMapper.translate (m : Machine) (page : Page) :
    Option PhysFrame × Machine :=
  (m.table.translate page, m)

/-- Run a sequence of `map` calls, one page at a time with fixed flags,
through a given mapper step function, threading the machine state; the run
yields a final state only when every call returned success. -/
def runBatch (step : Machine → Page → PageTableFlags → Outcome MapToError MapperFlush)
    (m : Machine) (pages : List Page) (flags : PageTableFlags) : Option Machine :=
  match pages with
  | [] => some m
  | p :: ps =>
    match step m p flags with
    | .ret (.ok _) m2 => runBatch step m2 ps flags
    | _ => none

/-! ### Helper lemmas about the entry-list operations -/

theorem lookupEntries_removeEntries (es : List Entry) (p q : Page) :
    lookupEntries (removeEntries es p) q =
      if q = p then none else lookupEntries es q := by
  induction es with
  | nil => simp [removeEntries, lookupEntries]
  | cons e es ih =>
    simp only [removeEntries]
    by_cases hep : e.1 = p
    · rw [if_pos hep, ih]
      by_cases hq : q = p
      · simp [hq]
      · have hne : e.1 ≠ q := fun h => hq (h ▸ hep)
        simp [lookupEntries, hq, hne]
    · rw [if_neg hep]
      simp only [lookupEntries]
      by_cases heq : e.1 = q
      · have hq : ¬(q = p) := fun h => hep (h ▸ heq)
        simp [heq, hq]
      · simp [heq, ih]

theorem lookupEntries_updateEntries (es : List Entry) (p q : Page)
    (fl : PageTableFlags) :
    lookupEntries (updateEntries es p fl) q =
      if q = p then (lookupEntries es p).map (fun x => (x.1, fl))
      else lookupEntries es q := by
  induction es with
  | nil => simp [updateEntries, lookupEntries]
  | cons e es ih =>
    simp only [updateEntries, lookupEntries]
    by_cases hep : e.1 = p
    · rw [if_pos hep]
      by_cases hq : q = p
      · simp [lookupEntries, hep, hq]
      · have hne : e.1 ≠ q := fun h => hq (h ▸ hep)
        have hpq : ¬(p = q) := fun h => hq h.symm
        simp [lookupEntries, hep, hq, hne, hpq, ih]
    · rw [if_neg hep]
      by_cases heq : e.1 = q
      · have hq : ¬(q = p) := fun h => hep (h ▸ heq)
        simp [lookupEntries, heq, hq]
      · by_cases hq : q = p
        · subst hq
          simp [lookupEntries, heq, ih]
        · simp [lookupEntries, heq, hq, ih]

theorem translate_eq_none_iff (t : RecursivePageTable) (p : Page) :
    t.translate p = none ↔ t.lookup p = none := by
  simp [RecursivePageTable.translate]

/-! ### Claim C7 -/

/-- C7: translate is a pure query: it returns the frame currently recorded in
the page table for the page (or none when the page is unmapped), it never
mutates the page-table or allocator state, and calling it again without an
intervening mutation returns the same result. -/
theorem PageMapper.translate_pure (m : Machine) (p : Page) :
    (PageMapper.translate m p).1 = m.table.translate p ∧
    (PageMapper.translate m p).2 = m ∧
    (PageMapper.translate (PageMapper.translate m p).2 p).1 =
      (PageMapper.translate m p).1 :=
  ⟨rfl, rfl, rfl⟩

/-! ### Claim C9 -/

/-- C9: when the frame allocator reports exhaustion during a non-batch
PageMapper map call, the call does not return an error result: the expect
panic fires and execution halts, the state unchanged at the halt. -/
theorem PageMapper.map_exhaustion_halts (m : Machine) (p : Page)
    (fl : PageTableFlags) (h : m.frames = []) :
    PageMapper.map m p fl = .halt m := by
  simp [PageMapper.map, h, memory.allocate_frame]

theorem PageMapper.map_exhaustion_halts_witness :
    PageMapper.map ⟨⟨[], []⟩, []⟩ ⟨0⟩ ⟨0⟩ = .halt ⟨⟨[], []⟩, []⟩ :=
  PageMapper.map_exhaustion_halts ⟨⟨[], []⟩, []⟩ ⟨0⟩ ⟨0⟩ rfl

/-! ### Claim C2 -/

/-- C2 counterexample: with the frame allocator exhausted, a map call through
the Locked (batch) Page Mapper does not return a FrameAllocationFailed error
to the caller: the unwrap panic fires and the system halts, refuting the
claim at this concrete input. -/
theorem LockedPageMapper.map_exhaustion_cex :
    LockedPageMapper.map ⟨⟨[], []⟩, []⟩ ⟨0⟩ ⟨0⟩ = .halt ⟨⟨[], []⟩, []⟩ ∧
    (LockedPageMapper.map ⟨⟨[], []⟩, []⟩ ⟨0⟩ ⟨0⟩).isHalt = true :=
  ⟨rfl, rfl⟩

/-- C2 amended: when the frame allocator reports exhaustion at the leaf-frame
acquisition during a map call through the Locked (batch) Page Mapper, the
call halts (unwrap panic) exactly like the non-batch path; no
FrameAllocationFailed error is returned to the batch caller. -/
theorem LockedPageMapper.lockedMap_exhaustion_panics (m : Machine) (p : Page)
    (fl : PageTableFlags) (h : m.frames = []) :
    LockedPageMapper.map m p fl = .halt m := by
  simp [LockedPageMapper.map, h, memory.allocate_frame]

theorem LockedPageMapper.lockedMap_exhaustion_panics_witness :
    LockedPageMapper.map ⟨⟨[], [⟨1⟩]⟩, []⟩ ⟨2⟩ ⟨0⟩ = .halt ⟨⟨[], [⟨1⟩]⟩, []⟩ :=
  LockedPageMapper.lockedMap_exhaustion_panics ⟨⟨[], [⟨1⟩]⟩, []⟩ ⟨2⟩ ⟨0⟩ rfl

/-! ### Claim C1 -/

/-- C1 counterexample: a PageMapper map call on an already-mapped page fails
with PageAlreadyMapped, yet the frame allocator has been consulted: the free
list shrank from one frame to none.  This refutes the claim that the
implementation validates the preconditions before touching any table entry
and only after that consults the frame allocator — the source consults the
allocator first, before any precondition is checked. -/
theorem PageMapper.map_allocator_order_cex :
    PageMapper.map ⟨⟨[(⟨0⟩, ⟨5⟩, ⟨0⟩)], []⟩, [⟨7⟩]⟩ ⟨0⟩ ⟨0⟩ =
      .ret (.error .PageAlreadyMapped) ⟨⟨[(⟨0⟩, ⟨5⟩, ⟨0⟩)], []⟩, []⟩ ∧
    (⟨⟨[(⟨0⟩, ⟨5⟩, ⟨0⟩)], []⟩, []⟩ : Machine).frames ≠
      (⟨⟨[(⟨0⟩, ⟨5⟩, ⟨0⟩)], []⟩, [⟨7⟩]⟩ : Machine).frames :=
  ⟨rfl, by decide⟩

/-- C1 amended: a PageMapper map call that fails leaves the page table
entirely unchanged — on a returned error the post-state table equals the
pre-state table, and on allocator exhaustion the call halts before touching
the table, so translate on a page with no prior translation still returns
the empty result afterwards; however, the implementation consults the frame
allocator first and only then the table operation validates the
preconditions (see the counterexample). -/
theorem PageMapper.map_failure_leaves_table_unchanged (m : Machine) (p : Page)
    (fl : PageTableFlags) :
    (∀ m2, PageMapper.map m p fl = .halt m2 → m2.table = m.table) ∧
    (∀ e m2, PageMapper.map m p fl = .ret (.error e) m2 → m2.table = m.table) ∧
    (m.frames = [] → m.table.translate p = none →
      PageMapper.map m p fl = .halt m ∧
      (PageMapper.map m p fl).state.table.translate p = none) := by
  cases hf : m.frames with
  | nil =>
    simp [PageMapper.map, hf, memory.allocate_frame, Outcome.state]
  | cons f rest =>
    cases hmt : m.table.map_to p f fl with
    | error e =>
      simp [PageMapper.map, hf, memory.allocate_frame, hmt, Outcome.state]
    | ok v =>
      obtain ⟨t2, flsh⟩ := v
      simp [PageMapper.map, hf, memory.allocate_frame, hmt, Outcome.state]

theorem PageMapper.map_failure_leaves_table_unchanged_witness :
    PageMapper.map ⟨⟨[], []⟩, []⟩ ⟨3⟩ ⟨0⟩ = .halt ⟨⟨[], []⟩, []⟩ ∧
    (PageMapper.map ⟨⟨[], []⟩, []⟩ ⟨3⟩ ⟨0⟩).state.table.translate ⟨3⟩ = none :=
  (PageMapper.map_failure_leaves_table_unchanged ⟨⟨[], []⟩, []⟩ ⟨3⟩ ⟨0⟩).2.2 rfl rfl

/-! ### Claim C3 -/

/-- C3: for every page with no current translation (and no parent slot
consumed by a huge page) and every flags value, a PageMapper map call with a
frame available succeeds, and translate afterwards returns exactly the frame
the call acquired from the frame allocator (the head of the free list). -/
theorem PageMapper.map_unmapped_succeeds (m : Machine) (p : Page)
    (fl : PageTableFlags) (fr : PhysFrame) (rest : List PhysFrame)
    (hframes : m.frames = fr :: rest)
    (hun : m.table.translate p = none)
    (hhuge : p ∉ m.table.hugeParents) :
    PageMapper.map m p fl =
      .ret (.ok ⟨p⟩) ⟨⟨(p, fr, fl) :: m.table.entries, m.table.hugeParents⟩, rest⟩ ∧
    (⟨⟨(p, fr, fl) :: m.table.entries, m.table.hugeParents⟩, rest⟩ : Machine).table.translate p
      = some fr := by
  have hlk : m.table.lookup p = none := (translate_eq_none_iff m.table p).mp hun
  constructor
  · simp [PageMapper.map, hframes, memory.allocate_frame,
      RecursivePageTable.map_to, hhuge, hlk]
  · simp [RecursivePageTable.translate, RecursivePageTable.lookup, lookupEntries]

theorem PageMapper.map_unmapped_succeeds_witness :
    PageMapper.map ⟨⟨[], []⟩, [⟨9⟩]⟩ ⟨1⟩ ⟨2⟩ =
      .ret (.ok ⟨⟨1⟩⟩) ⟨⟨[(⟨1⟩, ⟨9⟩, ⟨2⟩)], []⟩, []⟩ ∧
    (⟨⟨[(⟨1⟩, ⟨9⟩, ⟨2⟩)], []⟩, []⟩ : Machine).table.translate ⟨1⟩ = some ⟨9⟩ :=
  PageMapper.map_unmapped_succeeds ⟨⟨[], []⟩, [⟨9⟩]⟩ ⟨1⟩ ⟨2⟩ ⟨9⟩ [] rfl rfl (by decide)

/-! ### Claim C4 -/

/-- C4: mapping a page that already has a translation fails with
PageAlreadyMapped — for map whenever a frame is available for its
unconditional initial allocation, and for map_to with any caller-supplied
frame — and in every case the existing translation for the page is left
unchanged: it is never silently overwritten. -/
theorem PageMapper.map_already_mapped (m : Machine) (p : Page)
    (fl fl0 : PageTableFlags) (fr0 : PhysFrame)
    (hmapped : m.table.lookup p = some (fr0, fl0))
    (hhuge : p ∉ m.table.hugeParents) :
    (∀ f2 rest, m.frames = f2 :: rest →
      PageMapper.map m p fl =
        .ret (.error .PageAlreadyMapped) { m with frames := rest }) ∧
    (∀ f2, PageMapper.map_to m p f2 fl = .ret (.error .PageAlreadyMapped) m) ∧
    (PageMapper.map m p fl).state.table.translate p = some fr0 ∧
    (PageMapper.map_to m p fr0 fl).state.table.translate p = some fr0 := by
  have htr : m.table.translate p = some fr0 := by
    simp [RecursivePageTable.translate, hmapped]
  have hmt : ∀ f2, m.table.map_to p f2 fl = .error .PageAlreadyMapped := by
    intro f2
    simp [RecursivePageTable.map_to, hhuge, hmapped]
  refine ⟨?_, ?_, ?_, ?_⟩
  · intro f2 rest hf
    simp [PageMapper.map, hf, memory.allocate_frame, hmt]
  · intro f2
    simp [PageMapper.map_to, hmt]
  · cases hf : m.frames with
    | nil =>
      simp [PageMapper.map, hf, memory.allocate_frame, Outcome.state, htr]
    | cons f2 rest =>
      simp [PageMapper.map, hf, memory.allocate_frame, hmt, Outcome.state, htr]
  · simp [PageMapper.map_to, hmt, Outcome.state, htr]

theorem PageMapper.map_already_mapped_witness :
    PageMapper.map ⟨⟨[(⟨0⟩, ⟨5⟩, ⟨1⟩)], []⟩, [⟨7⟩]⟩ ⟨0⟩ ⟨3⟩ =
      .ret (.error .PageAlreadyMapped) ⟨⟨[(⟨0⟩, ⟨5⟩, ⟨1⟩)], []⟩, []⟩ ∧
    PageMapper.map_to ⟨⟨[(⟨0⟩, ⟨5⟩, ⟨1⟩)], []⟩, [⟨7⟩]⟩ ⟨0⟩ ⟨8⟩ ⟨3⟩ =
      .ret (.error .PageAlreadyMapped) ⟨⟨[(⟨0⟩, ⟨5⟩, ⟨1⟩)], []⟩, [⟨7⟩]⟩ :=
  ⟨(PageMapper.map_already_mapped ⟨⟨[(⟨0⟩, ⟨5⟩, ⟨1⟩)], []⟩, [⟨7⟩]⟩ ⟨0⟩ ⟨3⟩ ⟨1⟩ ⟨5⟩
      rfl (by decide)).1 ⟨7⟩ [] rfl,
   (PageMapper.map_already_mapped ⟨⟨[(⟨0⟩, ⟨5⟩, ⟨1⟩)], []⟩, [⟨7⟩]⟩ ⟨0⟩ ⟨3⟩ ⟨1⟩ ⟨5⟩
      rfl (by decide)).2.1 ⟨8⟩⟩

/-! ### Claim C5 -/

/-- C5: unmapping a mapped page succeeds, hands the freed frame back to the
frame allocator free list, and removes the translation; a second unmap of
the same page with no intervening map returns PageNotMapped and performs no
mutation of the state. -/
theorem PageMapper.unmap_once (m : Machine) (p : Page) (fr : PhysFrame)
    (fl : PageTableFlags) (hmapped : m.table.lookup p = some (fr, fl)) :
    ∃ m2, PageMapper.unmap m p = .ret (.ok ⟨p⟩) m2 ∧
      m2.frames = fr :: m.frames ∧
      m2.table.translate p = none ∧
      PageMapper.unmap m2 p = .ret (.error .PageNotMapped) m2 := by
  refine ⟨⟨⟨removeEntries m.table.entries p, m.table.hugeParents⟩, fr :: m.frames⟩,
    ?_, rfl, ?_, ?_⟩
  · simp [PageMapper.unmap, RecursivePageTable.unmap, hmapped,
      memory.deallocate_frame]
  · simp [RecursivePageTable.translate, RecursivePageTable.lookup,
      lookupEntries_removeEntries]
  · have hre : lookupEntries (removeEntries m.table.entries p) p = none := by
      simp [lookupEntries_removeEntries]
    simp [PageMapper.unmap, RecursivePageTable.unmap, RecursivePageTable.lookup, hre]

theorem PageMapper.unmap_once_witness :
    ∃ m2, PageMapper.unmap ⟨⟨[(⟨4⟩, ⟨6⟩, ⟨0⟩)], []⟩, [⟨9⟩]⟩ ⟨4⟩ = .ret (.ok ⟨⟨4⟩⟩) m2 ∧
      m2.frames = ⟨6⟩ :: [⟨9⟩] ∧
      m2.table.translate ⟨4⟩ = none ∧
      PageMapper.unmap m2 ⟨4⟩ = .ret (.error .PageNotMapped) m2 :=
  PageMapper.unmap_once ⟨⟨[(⟨4⟩, ⟨6⟩, ⟨0⟩)], []⟩, [⟨9⟩]⟩ ⟨4⟩ ⟨6⟩ ⟨0⟩ rfl

/-! ### Claim C6 -/

/-- C6: remap changes only the flags of an existing translation: translate
returns the same frame before and after, the flags for the page become the
new ones with the frame untouched, every other page's translation (frame and
flags) is unchanged and the allocator is not consulted; remap of a page with
no active translation fails with PageNotMapped and mutates nothing. -/
theorem PageMapper.remap_changes_only_flags (m : Machine) (p : Page)
    (fl2 : PageTableFlags) :
    (∀ fr fl, m.table.lookup p = some (fr, fl) →
      ∃ m2, PageMapper.remap m p fl2 = .ret (.ok ⟨p⟩) m2 ∧
        m2.table.translate p = m.table.translate p ∧
        m2.table.lookup p = some (fr, fl2) ∧
        (∀ q, q ≠ p → m2.table.lookup q = m.table.lookup q) ∧
        m2.frames = m.frames) ∧
    (m.table.lookup p = none →
      PageMapper.remap m p fl2 = .ret (.error .PageNotMapped) m) := by
  constructor
  · intro fr fl hmapped
    have hle : lookupEntries m.table.entries p = some (fr, fl) := hmapped
    refine ⟨⟨⟨updateEntries m.table.entries p fl2, m.table.hugeParents⟩, m.frames⟩,
      ?_, ?_, ?_, ?_, rfl⟩
    · simp [PageMapper.remap, RecursivePageTable.update_flags, hmapped]
    · simp [RecursivePageTable.translate, RecursivePageTable.lookup,
        lookupEntries_updateEntries, hle]
    · simp [RecursivePageTable.lookup, lookupEntries_updateEntries, hle]
    · intro q hq
      simp [RecursivePageTable.lookup, lookupEntries_updateEntries, hq]
  · intro hnone
    simp [PageMapper.remap, RecursivePageTable.update_flags, hnone]

theorem PageMapper.remap_changes_only_flags_witness :
    ∃ m2, PageMapper.remap ⟨⟨[(⟨2⟩, ⟨8⟩, ⟨0⟩), (⟨3⟩, ⟨9⟩, ⟨1⟩)], []⟩, []⟩ ⟨2⟩ ⟨5⟩ =
        .ret (.ok ⟨⟨2⟩⟩) m2 ∧
      m2.table.translate ⟨2⟩ =
        (⟨⟨[(⟨2⟩, ⟨8⟩, ⟨0⟩), (⟨3⟩, ⟨9⟩, ⟨1⟩)], []⟩, []⟩ : Machine).table.translate ⟨2⟩ ∧
      m2.table.lookup ⟨2⟩ = some (⟨8⟩, ⟨5⟩) ∧
      (∀ q, q ≠ ⟨2⟩ → m2.table.lookup q =
        (⟨⟨[(⟨2⟩, ⟨8⟩, ⟨0⟩), (⟨3⟩, ⟨9⟩, ⟨1⟩)], []⟩, []⟩ : Machine).table.lookup q) ∧
      m2.frames = [] :=
  (PageMapper.remap_changes_only_flags ⟨⟨[(⟨2⟩, ⟨8⟩, ⟨0⟩), (⟨3⟩, ⟨9⟩, ⟨1⟩)], []⟩, []⟩
    ⟨2⟩ ⟨5⟩).1 ⟨8⟩ ⟨0⟩ rfl

/-! ### Claim C10 -/

/-- C10: map_to has exactly the failure conditions of map minus allocator
exhaustion: it never halts, its only possible errors are PageAlreadyMapped
and ParentEntryHugePage (never FrameAllocationFailed), and whenever the
allocator is non-empty — so that map completes instead of halting — map and
map_to fail with exactly the same errors. -/
theorem PageMapper.map_to_no_alloc_failure (m : Machine) (p : Page)
    (fr : PhysFrame) (fl : PageTableFlags) :
    (PageMapper.map_to m p fr fl).isHalt = false ∧
    (∀ e m2, PageMapper.map_to m p fr fl = .ret (.error e) m2 →
      e = .PageAlreadyMapped ∨ e = .ParentEntryHugePage) ∧
    (m.frames ≠ [] → ∀ e,
      (∃ m2, PageMapper.map_to m p fr fl = .ret (.error e) m2) ↔
      (∃ m2, PageMapper.map m p fl = .ret (.error e) m2)) := by
  by_cases hhp : p ∈ m.table.hugeParents
  · have hmtfr : ∀ f2, m.table.map_to p f2 fl = .error .ParentEntryHugePage := by
      intro f2
      simp [RecursivePageTable.map_to, hhp]
    refine ⟨by simp [PageMapper.map_to, hmtfr, Outcome.isHalt], ?_, ?_⟩
    · intro e m2 h
      simp [PageMapper.map_to, hmtfr] at h
      obtain ⟨h1, -⟩ := h
      subst h1
      exact Or.inr rfl
    · intro hne e
      cases hf : m.frames with
      | nil => exact absurd hf hne
      | cons f2 rest =>
        simp [PageMapper.map_to, PageMapper.map, hf, memory.allocate_frame, hmtfr]
  · cases hlk : m.table.lookup p with
    | some v =>
      have hmtfr : ∀ f2, m.table.map_to p f2 fl = .error .PageAlreadyMapped := by
        intro f2
        simp [RecursivePageTable.map_to, hhp, hlk]
      refine ⟨by simp [PageMapper.map_to, hmtfr, Outcome.isHalt], ?_, ?_⟩
      · intro e m2 h
        simp [PageMapper.map_to, hmtfr] at h
        obtain ⟨h1, -⟩ := h
        subst h1
        exact Or.inl rfl
      · intro hne e
        cases hf : m.frames with
        | nil => exact absurd hf hne
        | cons f2 rest =>
          simp [PageMapper.map_to, PageMapper.map, hf, memory.allocate_frame, hmtfr]
    | none =>
      have hmtfr : ∀ f2, m.table.map_to p f2 fl =
          .ok ({ m.table with entries := (p, f2, fl) :: m.table.entries }, ⟨p⟩) := by
        intro f2
        simp [RecursivePageTable.map_to, hhp, hlk]
      refine ⟨by simp [PageMapper.map_to, hmtfr, Outcome.isHalt], ?_, ?_⟩
      · intro e m2 h
        simp [PageMapper.map_to, hmtfr] at h
      · intro hne e
        cases hf : m.frames with
        | nil => exact absurd hf hne
        | cons f2 rest =>
          simp [PageMapper.map_to, PageMapper.map, hf, memory.allocate_frame, hmtfr]

theorem PageMapper.map_to_no_alloc_failure_witness :
    (PageMapper.map_to ⟨⟨[], []⟩, []⟩ ⟨0⟩ ⟨4⟩ ⟨0⟩).isHalt = false ∧
    ((∃ m2, PageMapper.map_to ⟨⟨[(⟨1⟩, ⟨5⟩, ⟨0⟩)], []⟩, [⟨6⟩]⟩ ⟨1⟩ ⟨4⟩ ⟨0⟩ =
        .ret (.error .PageAlreadyMapped) m2) ↔
      (∃ m2, PageMapper.map ⟨⟨[(⟨1⟩, ⟨5⟩, ⟨0⟩)], []⟩, [⟨6⟩]⟩ ⟨1⟩ ⟨0⟩ =
        .ret (.error .PageAlreadyMapped) m2)) :=
  ⟨(PageMapper.map_to_no_alloc_failure ⟨⟨[], []⟩, []⟩ ⟨0⟩ ⟨4⟩ ⟨0⟩).1,
   (PageMapper.map_to_no_alloc_failure ⟨⟨[(⟨1⟩, ⟨5⟩, ⟨0⟩)], []⟩, [⟨6⟩]⟩ ⟨1⟩ ⟨4⟩ ⟨0⟩).2.2
     (by decide) .PageAlreadyMapped⟩

/-! ### Claim C8 -/

theorem lockedMap_eq_map (m : Machine) (p : Page) (fl : PageTableFlags) :
    LockedPageMapper.map m p fl = PageMapper.map m p fl := rfl

theorem runBatch_congr (s1 s2 : Machine → Page → PageTableFlags → Outcome MapToError MapperFlush)
    (h : ∀ m p fl, s1 m p fl = s2 m p fl) (m : Machine) (pages : List Page)
    (fl : PageTableFlags) :
    runBatch s1 m pages fl = runBatch s2 m pages fl := by
  induction pages generalizing m with
  | nil => rfl
  | cons p ps ih =>
    simp only [runBatch, h]
    cases s2 m p fl with
    | halt m2 => rfl
    | ret r m2 =>
      cases r with
      | error e => rfl
      | ok v => exact ih m2

theorem runBatch_map_succeeds (pages : List Page) :
    ∀ (m : Machine) (fl : PageTableFlags), pages.Nodup →
    (∀ p ∈ pages, m.table.lookup p = none) →
    (∀ p ∈ pages, p ∉ m.table.hugeParents) →
    pages.length ≤ m.frames.length →
    ∃ m2, runBatch PageMapper.map m pages fl = some m2 := by
  induction pages with
  | nil =>
    intro m fl _ _ _ _
    exact ⟨m, rfl⟩
  | cons p ps ih =>
    intro m fl hnd hun hhuge hlen
    cases hf : m.frames with
    | nil =>
      rw [hf] at hlen
      simp at hlen
    | cons fr rest =>
      have hup : m.table.lookup p = none := hun p (by simp)
      have hhp : p ∉ m.table.hugeParents := hhuge p (by simp)
      obtain ⟨hpnotin, hndps⟩ := List.nodup_cons.mp hnd
      have hstep : PageMapper.map m p fl =
          .ret (.ok ⟨p⟩) ⟨⟨(p, fr, fl) :: m.table.entries, m.table.hugeParents⟩, rest⟩ := by
        simp [PageMapper.map, hf, memory.allocate_frame, RecursivePageTable.map_to,
          hhp, hup]
      have hun2 : ∀ q ∈ ps,
          (⟨⟨(p, fr, fl) :: m.table.entries, m.table.hugeParents⟩, rest⟩ : Machine).table.lookup q
            = none := by
        intro q hq
        have hqp : ¬(p = q) := fun h => hpnotin (h ▸ hq)
        have := hun q (List.mem_cons_of_mem p hq)
        simpa [RecursivePageTable.lookup, lookupEntries, hqp] using this
      have hhuge2 : ∀ q ∈ ps,
          q ∉ (⟨⟨(p, fr, fl) :: m.table.entries, m.table.hugeParents⟩, rest⟩ : Machine).table.hugeParents := by
        intro q hq
        exact hhuge q (List.mem_cons_of_mem p hq)
      have hlen2 : ps.length ≤ rest.length := by
        rw [hf] at hlen
        simpa using hlen
      obtain ⟨m3, hm3⟩ :=
        ih ⟨⟨(p, fr, fl) :: m.table.entries, m.table.hugeParents⟩, rest⟩ fl
          hndps hun2 hhuge2 hlen2
      exact ⟨m3, by simp [runBatch, hstep, hm3]⟩

/-- C8: issuing N map calls for N distinct unmapped pages (none blocked by a
huge parent) through the Locked (batch) Page Mapper, with at least N frames
available, succeeds for all N and produces exactly the same final machine
state — translation table and allocator — as issuing the same N calls one at
a time through the non-batch PageMapper. -/
theorem LockedPageMapper.batch_map_equiv (m : Machine) (pages : List Page)
    (fl : PageTableFlags) (hnd : pages.Nodup)
    (hun : ∀ p ∈ pages, m.table.translate p = none)
    (hhuge : ∀ p ∈ pages, p ∉ m.table.hugeParents)
    (hlen : pages.length ≤ m.frames.length) :
    ∃ m2, runBatch LockedPageMapper.map m pages fl = some m2 ∧
      runBatch PageMapper.map m pages fl = some m2 := by
  have heq : runBatch LockedPageMapper.map m pages fl =
      runBatch PageMapper.map m pages fl :=
    runBatch_congr _ _ lockedMap_eq_map m pages fl
  have hun2 : ∀ p ∈ pages, m.table.lookup p = none := fun p hp =>
    (translate_eq_none_iff m.table p).mp (hun p hp)
  obtain ⟨m2, hm2⟩ := runBatch_map_succeeds pages m fl hnd hun2 hhuge hlen
  exact ⟨m2, heq.trans hm2, hm2⟩

theorem LockedPageMapper.batch_map_equiv_witness :
    ∃ m2, runBatch LockedPageMapper.map ⟨⟨[], []⟩, [⟨10⟩, ⟨11⟩]⟩ [⟨0⟩, ⟨1⟩] ⟨0⟩ = some m2 ∧
      runBatch PageMapper.map ⟨⟨[], []⟩, [⟨10⟩, ⟨11⟩]⟩ [⟨0⟩, ⟨1⟩] ⟨0⟩ = some m2 :=
  LockedPageMapper.batch_map_equiv ⟨⟨[], []⟩, [⟨10⟩, ⟨11⟩]⟩ [⟨0⟩, ⟨1⟩] ⟨0⟩
    (by decide) (by decide) (by decide) (by decide)
